import Mathlib

/-!
Verification of the texture atlas generator
(src/resources/textures/atlas_generator.py).

The script packs a list of fixed-size square textures into one atlas image
and records, for each texture, its placement index, pixel origin and
normalized UV rectangle in a JSON metadata document.  The embedding below
models the observable behaviour of TextureAtlasBuilder.create_atlas and of
the main entry point: pixel coordinates are naturals, UV coordinates are
rationals, the Python dict metadata['textures'] is an association list in
assignment order together with a last-assignment-wins lookup, and image
decoding is abstracted by a per-file success flag.
-/

namespace AtlasGenerator

/-- A source texture file as the generator observes it: the identifier
derived from its filename (basename without extension, the value of
os.path.splitext(os.path.basename(tex_file))[0]) and whether Image.open
succeeds on it. -/
structure SourceTexture where
  name : String
  decodes : Bool
  deriving DecidableEq

/-- The record stored at metadata['textures'][tex_name] for one texture:
placement index, pixel origin (x, y), and the UV rectangle min/max corners. -/
structure PlacementEntry where
  index : Nat
  position : Nat × Nat
  uvMin : ℚ × ℚ
  uvMax : ℚ × ℚ
  deriving DecidableEq

/-- The metadata document built by create_atlas.  The textures field keeps
the dict assignments in execution order; Python dict lookup is modelled by
dictLookup below (a later assignment to the same key wins). -/
structure AtlasMetadata where
  texture_size : Nat
  atlas_size : Nat
  textures_per_row : Nat
  textures : List (String × PlacementEntry)
  deriving DecidableEq

/-- The observable outcome of one create_atlas run: the metadata document,
the pixel origins pasted into the atlas buffer (atlas.paste calls, in
order), and whether the capacity warning was reported. -/
structure AtlasResult where
  metadata : AtlasMetadata
  pasted : List (Nat × Nat)
  truncated : Bool
  deriving DecidableEq

/-- TextureAtlasBuilder.__init__: stores the tile edge and the target
maximum atlas edge. -/
structure TextureAtlasBuilder where
  texture_size : Nat
  target_atlas_size : Nat
  deriving DecidableEq

/-- self.textures_per_row = target_atlas_size // texture_size. -/
def TextureAtlasBuilder.textures_per_row (b : TextureAtlasBuilder) : Nat :=
  b.target_atlas_size / b.texture_size

/-- self.max_textures = self.textures_per_row ** 2. -/
def TextureAtlasBuilder.max_textures (b : TextureAtlasBuilder) : Nat :=
  b.textures_per_row ^ 2

/-- Search upward from candidate k for the least m >= k with n <= m * m;
the fuel argument bounds the number of steps and keeps the recursion
structural (so that it evaluates inside the kernel). -/
def ceilSqrtAux (n : Nat) : Nat → Nat → Nat
  | 0, k => k
  | fuel + 1, k => if n ≤ k * k then k else ceilSqrtAux n fuel (k + 1)

/-- math.ceil(math.sqrt n) on naturals: the least k with n <= k * k (the
search needs at most n steps since n <= n * n).  The characterizing
properties are le_ceilSqrt_sq and ceilSqrt_pred_sq_lt below. -/
def ceilSqrt (n : Nat) : Nat :=
  ceilSqrtAux n n 0

/-- The body of the paste loop for placement index idx, tile edge T, grid
edge cps (textures_per_side) and atlas edge A (actual_atlas_size):
row = idx // cps, col = idx % cps, pixel origin (col*T, row*T), and the
Y-flipped UV rectangle. -/
def makeEntry (T cps A idx : Nat) : PlacementEntry :=
  let row := idx / cps
  let col := idx % cps
  let x := col * T
  let y := row * T
  { index := idx
    position := (x, y)
    uvMin := ((x : ℚ) / (A : ℚ), ((A : ℚ) - (y : ℚ) - (T : ℚ)) / (A : ℚ))
    uvMax := (((x : ℚ) + (T : ℚ)) / (A : ℚ), ((A : ℚ) - (y : ℚ)) / (A : ℚ)) }

/-- One iteration of the paste loop: if the file decodes, it yields the
metadata assignment for this index, otherwise the iteration is skipped by
the exception handler. -/
def processTexture (T cps A idx : Nat) (t : SourceTexture) : Option (String × PlacementEntry) :=
  if t.decodes then some (t.name, makeEntry T cps A idx) else none

/-- The for idx, tex_file in enumerate(texture_files) loop: the dict
assignments performed, in execution order. -/
def packEntries (T cps A : Nat) : Nat → List SourceTexture → List (String × PlacementEntry)
  | _, [] => []
  | idx, t :: ts =>
    match processTexture T cps A idx t with
    | some e => e :: packEntries T cps A (idx + 1) ts
    | none => packEntries T cps A (idx + 1) ts

/-- TextureAtlasBuilder.create_atlas: truncate the input to max_textures
if it is longer (reporting the truncation), choose
textures_per_side = ceil(sqrt(num_textures)) and
actual_atlas_size = textures_per_side * texture_size, then run the paste
loop. -/
def TextureAtlasBuilder.create_atlas (b : TextureAtlasBuilder)
    (texture_files : List SourceTexture) : AtlasResult :=
  let truncated : Bool := decide (texture_files.length > b.max_textures)
  let files :=
    if texture_files.length > b.max_textures then texture_files.take b.max_textures
    else texture_files
  let num_textures :=
    if texture_files.length > b.max_textures then b.max_textures
    else texture_files.length
  let textures_per_side := ceilSqrt num_textures
  let actual_atlas_size := textures_per_side * b.texture_size
  let entries := packEntries b.texture_size textures_per_side actual_atlas_size 0 files
  { metadata :=
      { texture_size := b.texture_size
        atlas_size := actual_atlas_size
        textures_per_row := textures_per_side
        textures := entries }
    pasted := entries.map (fun e => e.2.position)
    truncated := truncated }

/-- Lookup in the Python dict built by the assignments in l: the value of
the latest assignment to key k, if any. -/
def dictLookup : List (String × PlacementEntry) → String → Option PlacementEntry
  | [], _ => none
  | (k, v) :: rest, s =>
    match dictLookup rest s with
    | some w => some w
    | none => if k = s then some v else none

/-- The index values stored in the dict built by the assignments in l: one
per distinct key, taken from the latest assignment to that key. -/
def dictIndices (l : List (String × PlacementEntry)) : List Nat :=
  ((l.map Prod.fst).dedup).filterMap (fun k => (dictLookup l k).map PlacementEntry.index)

/-- Outcome of the main entry point: process exit code and the atlas run
result, if one was produced. -/
structure MainResult where
  exitCode : Nat
  atlas : Option AtlasResult
  deriving DecidableEq

/-- The main entry point, after directory scanning has produced the list of
texture files: with no files it prints an error and returns 1 without
building anything; otherwise it builds the atlas with texture_size=16 and
target_atlas_size=1024 and returns 0. -/
def main (texture_files : List SourceTexture) : MainResult :=
  if texture_files.isEmpty then { exitCode := 1, atlas := none }
  else
    { exitCode := 0
      atlas := some ((TextureAtlasBuilder.mk 16 1024).create_atlas texture_files) }

/-! Arithmetic facts about ceilSqrt. -/

theorem ceilSqrtAux_sq_ge (n : Nat) :
    ∀ fuel k, n ≤ (k + fuel) * (k + fuel) → n ≤ ceilSqrtAux n fuel k * ceilSqrtAux n fuel k := by
  intro fuel
  induction fuel with
  | zero => intro k h; simpa [ceilSqrtAux] using h
  | succ fuel ih =>
    intro k h
    rw [ceilSqrtAux]
    by_cases hk : n ≤ k * k
    · rw [if_pos hk]; exact hk
    · rw [if_neg hk]
      apply ih (k + 1)
      have : k + 1 + fuel = k + (fuel + 1) := by omega
      rw [this]
      exact h

theorem ceilSqrtAux_min (n : Nat) :
    ∀ fuel k, k ≤ ceilSqrtAux n fuel k ∧
      ∀ m, k ≤ m → m < ceilSqrtAux n fuel k → m * m < n := by
  intro fuel
  induction fuel with
  | zero =>
    intro k
    refine ⟨Nat.le_refl k, fun m hm hm2 => ?_⟩
    rw [ceilSqrtAux] at hm2
    omega
  | succ fuel ih =>
    intro k
    rw [ceilSqrtAux]
    by_cases hk : n ≤ k * k
    · rw [if_pos hk]
      exact ⟨Nat.le_refl k, fun m hm hm2 => by omega⟩
    · rw [if_neg hk]
      obtain ⟨hle, hmin⟩ := ih (k + 1)
      refine ⟨by omega, fun m hm hm2 => ?_⟩
      rcases Nat.eq_or_lt_of_le hm with heq | hlt
      · subst heq; omega
      · exact hmin m hlt hm2

theorem le_ceilSqrt_sq (n : Nat) : n ≤ ceilSqrt n ^ 2 := by
  rw [pow_two]
  apply ceilSqrtAux_sq_ge n n 0
  rcases Nat.eq_zero_or_pos n with h0 | h0
  · simp [h0]
  · have : n * 1 ≤ n * n := Nat.mul_le_mul_left n h0
    simpa using this

theorem ceilSqrt_min (n : Nat) : ∀ m, m < ceilSqrt n → m * m < n :=
  fun m hm => (ceilSqrtAux_min n n 0).2 m (Nat.zero_le m) hm

theorem ceilSqrt_pred_sq_lt (n : Nat) (h : 1 ≤ n) : (ceilSqrt n - 1) ^ 2 < n := by
  have hpos : 1 ≤ ceilSqrt n := by
    by_contra hc
    have h0 : ceilSqrt n = 0 := by omega
    have := le_ceilSqrt_sq n
    rw [h0] at this
    simp at this
    omega
  rw [pow_two]
  exact ceilSqrt_min n (ceilSqrt n - 1) (by omega)

theorem ceilSqrt_pos (n : Nat) (h : 1 ≤ n) : 1 ≤ ceilSqrt n := by
  by_contra hc
  have h0 : ceilSqrt n = 0 := by omega
  have := le_ceilSqrt_sq n
  rw [h0] at this
  simp at this
  omega

theorem ceilSqrt_sq_self (k : Nat) : ceilSqrt (k ^ 2) = k := by
  have h1 : k ^ 2 ≤ ceilSqrt (k ^ 2) ^ 2 := le_ceilSqrt_sq (k ^ 2)
  have hmin := ceilSqrt_min (k ^ 2)
  set r := ceilSqrt (k ^ 2) with hr
  have e1 : k ^ 2 = k * k := pow_two k
  have e2 : r ^ 2 = r * r := pow_two r
  have h3 : r ≤ k := by
    by_contra hc
    have := hmin k (by omega)
    omega
  have h2 : k ≤ r := by
    by_contra hc
    have hsq : r * r < k * k := Nat.mul_self_lt_mul_self (by omega)
    omega
  omega

/-! Normal form of a create_atlas run: the processed file list is always the
first max_textures files, and the texture count after any truncation is
min of the input length and max_textures. -/

theorem create_atlas_eq (b : TextureAtlasBuilder) (files : List SourceTexture) :
    b.create_atlas files =
      { metadata :=
          { texture_size := b.texture_size
            atlas_size := ceilSqrt (min files.length b.max_textures) * b.texture_size
            textures_per_row := ceilSqrt (min files.length b.max_textures)
            textures := packEntries b.texture_size
              (ceilSqrt (min files.length b.max_textures))
              (ceilSqrt (min files.length b.max_textures) * b.texture_size) 0
              (files.take b.max_textures) }
        pasted := (packEntries b.texture_size
              (ceilSqrt (min files.length b.max_textures))
              (ceilSqrt (min files.length b.max_textures) * b.texture_size) 0
              (files.take b.max_textures)).map (fun e => e.2.position)
        truncated := decide (files.length > b.max_textures) } := by
  unfold TextureAtlasBuilder.create_atlas
  by_cases h : files.length > b.max_textures
  · have hmin : min files.length b.max_textures = b.max_textures :=
      Nat.min_eq_right (Nat.le_of_lt h)
    rw [hmin]
    simp [h]
  · have hle : files.length ≤ b.max_textures := Nat.not_lt.mp h
    have hmin : min files.length b.max_textures = files.length :=
      Nat.min_eq_left hle
    rw [hmin, List.take_of_length_le hle]
    simp [h]

theorem length_take_max (b : TextureAtlasBuilder) (files : List SourceTexture) :
    (files.take b.max_textures).length = min files.length b.max_textures := by
  rw [List.length_take, Nat.min_comm]

/-! Structure of the list of metadata assignments produced by the paste loop. -/

theorem makeEntry_index (T cps A idx : Nat) : (makeEntry T cps A idx).index = idx := rfl

theorem makeEntry_position (T cps A idx : Nat) :
    (makeEntry T cps A idx).position = (idx % cps * T, idx / cps * T) := rfl

theorem mem_packEntries {T cps A : Nat} {ts : List SourceTexture} {idx : Nat}
    {e : String × PlacementEntry} (he : e ∈ packEntries T cps A idx ts) :
    ∃ j, ∃ h : j < ts.length, (ts.get ⟨j, h⟩).decodes = true ∧
      e = ((ts.get ⟨j, h⟩).name, makeEntry T cps A (idx + j)) := by
  induction ts generalizing idx with
  | nil => simp [packEntries] at he
  | cons t rest ih =>
    by_cases hd : t.decodes = true
    · simp only [packEntries, processTexture, hd, if_true, List.mem_cons] at he
      rcases he with he | he
      · exact ⟨0, Nat.succ_pos rest.length, hd, by simpa using he⟩
      · obtain ⟨j, hj, hdec, heq⟩ := ih he
        refine ⟨j + 1, Nat.succ_lt_succ hj, hdec, ?_⟩
        have harith : idx + 1 + j = idx + (j + 1) := by omega
        rw [heq, harith]
        rfl
    · simp only [packEntries, processTexture, hd, if_false] at he
      obtain ⟨j, hj, hdec, heq⟩ := ih he
      refine ⟨j + 1, Nat.succ_lt_succ hj, hdec, ?_⟩
      have harith : idx + 1 + j = idx + (j + 1) := by omega
      rw [heq, harith]
      rfl

theorem packEntries_mem_of (T cps A : Nat) {ts : List SourceTexture} (idx j : Nat)
    (h : j < ts.length) (hd : (ts.get ⟨j, h⟩).decodes = true) :
    ((ts.get ⟨j, h⟩).name, makeEntry T cps A (idx + j)) ∈ packEntries T cps A idx ts := by
  induction ts generalizing idx j with
  | nil => simp at h
  | cons t rest ih =>
    cases j with
    | zero =>
      have hd0 : t.decodes = true := hd
      simp only [packEntries, processTexture, hd0, if_true]
      exact List.mem_cons_self _ _
    | succ j =>
      have hj : j < rest.length := Nat.lt_of_succ_lt_succ h
      have harith : idx + 1 + j = idx + (j + 1) := by omega
      by_cases hdt : t.decodes = true
      · simp only [packEntries, processTexture, hdt, if_true]
        refine List.mem_cons_of_mem _ ?_
        have := ih (idx + 1) j hj hd
        rwa [harith] at this
      · simp only [packEntries, processTexture, hdt, if_false]
        have := ih (idx + 1) j hj hd
        rwa [harith] at this

theorem packEntries_length (T cps A : Nat) (ts : List SourceTexture) (idx : Nat) :
    (packEntries T cps A idx ts).length = (ts.filter (fun t => t.decodes)).length := by
  induction ts generalizing idx with
  | nil => simp [packEntries]
  | cons t rest ih =>
    by_cases hd : t.decodes = true
    · simp [packEntries, processTexture, hd, ih]
    · simp [packEntries, processTexture, hd, ih]

theorem packEntries_keys_of_all_decode (T cps A : Nat) {ts : List SourceTexture}
    (hd : ∀ t ∈ ts, t.decodes = true) (idx : Nat) :
    (packEntries T cps A idx ts).map Prod.fst = ts.map SourceTexture.name := by
  induction ts generalizing idx with
  | nil => simp [packEntries]
  | cons t rest ih =>
    have hdt : t.decodes = true := hd t (List.mem_cons_self _ _)
    simp only [packEntries, processTexture, hdt, if_true, List.map_cons]
    rw [ih (fun u hu => hd u (List.mem_cons_of_mem _ hu))]

theorem packEntries_indices_of_all_decode {T cps A : Nat} {ts : List SourceTexture}
    (hd : ∀ t ∈ ts, t.decodes = true) (idx : Nat) :
    (packEntries T cps A idx ts).map (fun e => e.2.index) = List.range' idx ts.length := by
  induction ts generalizing idx with
  | nil => simp [packEntries]
  | cons t rest ih =>
    have hdt : t.decodes = true := hd t (List.mem_cons_self _ _)
    simp only [packEntries, processTexture, hdt, if_true, List.map_cons, List.length_cons,
      List.range'_succ]
    rw [ih (fun u hu => hd u (List.mem_cons_of_mem _ hu))]
    rfl

/-! Lookup behaviour of the metadata dict. -/

theorem dictLookup_eq_none {l : List (String × PlacementEntry)} {s : String}
    (h : ∀ e ∈ l, e.1 ≠ s) : dictLookup l s = none := by
  induction l with
  | nil => rfl
  | cons p rest ih =>
    obtain ⟨k, v⟩ := p
    have hk : k ≠ s := h (k, v) (List.mem_cons_self _ _)
    have hrest : dictLookup rest s = none :=
      ih (fun e he => h e (List.mem_cons_of_mem _ he))
    simp only [dictLookup, hrest, hk, if_false]

theorem dictLookup_cons_ne {k : String} {v : PlacementEntry}
    {l : List (String × PlacementEntry)} {s : String} (h : k ≠ s) :
    dictLookup ((k, v) :: l) s = dictLookup l s := by
  simp only [dictLookup]
  cases hdl : dictLookup l s with
  | none => simp [h]
  | some w => rfl

theorem dictLookup_packEntries_last (T cps A : Nat) {ts : List SourceTexture} {s : String}
    {j : Nat} (hj : j < ts.length) (hn : (ts.get ⟨j, hj⟩).name = s)
    (hd : (ts.get ⟨j, hj⟩).decodes = true)
    (hlast : ∀ k, ∀ hk : k < ts.length, j < k → (ts.get ⟨k, hk⟩).name = s →
      (ts.get ⟨k, hk⟩).decodes = true → False) (idx : Nat) :
    dictLookup (packEntries T cps A idx ts) s = some (makeEntry T cps A (idx + j)) := by
  induction ts generalizing idx j with
  | nil => simp at hj
  | cons t rest ih =>
    cases j with
    | zero =>
      have hd0 : t.decodes = true := hd
      have hn0 : t.name = s := hn
      have hnone : dictLookup (packEntries T cps A (idx + 1) rest) s = none := by
        apply dictLookup_eq_none
        intro e he
        obtain ⟨j', hj', hdec, heq⟩ := mem_packEntries he
        intro hes
        have hname : (rest.get ⟨j', hj'⟩).name = s := by rw [heq] at hes; exact hes
        exact hlast (j' + 1) (Nat.succ_lt_succ hj') (Nat.succ_pos j') hname hdec
      simp only [packEntries, processTexture, hd0, if_true]
      simp only [dictLookup, hnone, hn0, if_pos]
      rfl
    | succ j =>
      have hjr : j < rest.length := Nat.lt_of_succ_lt_succ hj
      have hdr : (rest.get ⟨j, hjr⟩).decodes = true := hd
      have hnr : (rest.get ⟨j, hjr⟩).name = s := hn
      have hlastr : ∀ k, ∀ hk : k < rest.length, j < k → (rest.get ⟨k, hk⟩).name = s →
          (rest.get ⟨k, hk⟩).decodes = true → False := by
        intro k hk hjk hnk hdk
        exact hlast (k + 1) (Nat.succ_lt_succ hk) (Nat.succ_lt_succ hjk) hnk hdk
      have htail := ih hjr hnr hdr hlastr (idx + 1)
      have harith : idx + 1 + j = idx + (j + 1) := by omega
      rw [harith] at htail
      by_cases hdt : t.decodes = true
      · simp only [packEntries, processTexture, hdt, if_true]
        simp only [dictLookup, htail]
      · simp only [packEntries, processTexture, hdt, if_false]
        exact htail

theorem dictIndices_of_nodup_keys {l : List (String × PlacementEntry)}
    (h : (l.map Prod.fst).Nodup) : dictIndices l = l.map (fun e => e.2.index) := by
  induction l with
  | nil => rfl
  | cons p rest ih =>
    obtain ⟨k, v⟩ := p
    have hk : k ∉ rest.map Prod.fst := by
      simp only [List.map_cons, List.nodup_cons] at h
      exact h.1
    have hrest : (rest.map Prod.fst).Nodup := by
      simp only [List.map_cons, List.nodup_cons] at h
      exact h.2
    unfold dictIndices
    simp only [List.map_cons]
    rw [List.dedup_cons_of_not_mem hk, List.dedup_eq_self.mpr hrest]
    simp only [List.filterMap_cons]
    have h1 : dictLookup ((k, v) :: rest) k = some v := by
      have hnone : dictLookup rest k = none := by
        apply dictLookup_eq_none
        intro e he hek
        exact hk (by rw [← hek]; exact List.mem_map_of_mem Prod.fst he)
      simp [dictLookup, hnone]
    rw [h1]
    have h2 : (rest.map Prod.fst).filterMap
        (fun s => (dictLookup ((k, v) :: rest) s).map PlacementEntry.index)
        = (rest.map Prod.fst).filterMap
        (fun s => (dictLookup rest s).map PlacementEntry.index) := by
      apply List.filterMap_congr
      intro s hs
      have hks : k ≠ s := fun hkk => hk (hkk ▸ hs)
      rw [dictLookup_cons_ne hks]
    rw [h2]
    have h3 : (rest.map Prod.fst).filterMap
        (fun s => (dictLookup rest s).map PlacementEntry.index) = dictIndices rest := by
      unfold dictIndices
      rw [List.dedup_eq_self.mpr hrest]
    rw [h3, ih hrest]
    simp

/-! Coordinate bounds for a placement index inside the grid. -/

theorem makeEntry_coord_bounds {cps idx : Nat} (T : Nat) (h : idx < cps * cps) :
    idx % cps * T + T ≤ cps * T ∧ idx / cps * T + T ≤ cps * T := by
  have hcps : 0 < cps := by
    rcases Nat.eq_zero_or_pos cps with h0 | h0
    · subst h0; simp at h
    · exact h0
  have hcol : idx % cps < cps := Nat.mod_lt idx hcps
  have hrow : idx / cps < cps := (Nat.div_lt_iff_lt_mul hcps).mpr h
  constructor
  · calc idx % cps * T + T = (idx % cps + 1) * T := by ring
      _ ≤ cps * T := Nat.mul_le_mul_right T hcol
  · calc idx / cps * T + T = (idx / cps + 1) * T := by ring
      _ ≤ cps * T := Nat.mul_le_mul_right T hrow

/-- Every recorded metadata assignment comes from a decoding file of the
processed (possibly truncated) list, placed by makeEntry at its original
index. -/
theorem mem_create_atlas_textures {b : TextureAtlasBuilder} {files : List SourceTexture}
    {e : String × PlacementEntry} (he : e ∈ (b.create_atlas files).metadata.textures) :
    ∃ j, ∃ h : j < (files.take b.max_textures).length,
      ((files.take b.max_textures).get ⟨j, h⟩).decodes = true ∧
      e = (((files.take b.max_textures).get ⟨j, h⟩).name,
        makeEntry b.texture_size (ceilSqrt (min files.length b.max_textures))
          (ceilSqrt (min files.length b.max_textures) * b.texture_size) j) := by
  rw [create_atlas_eq] at he
  obtain ⟨j, hj, hdec, heq⟩ := mem_packEntries he
  refine ⟨j, hj, hdec, ?_⟩
  rw [heq, Nat.zero_add]

/-! Concrete inputs used by the scenario witnesses: the builder configured as
in main (texture_size=16, target_atlas_size=1024), a smaller builder for the
capacity scenario, and small file lists. -/

def demoBuilder : TextureAtlasBuilder := { texture_size := 16, target_atlas_size := 1024 }

def smallBuilder : TextureAtlasBuilder := { texture_size := 16, target_atlas_size := 32 }

def demoFiles5 : List SourceTexture :=
  [{ name := "stone", decodes := true }, { name := "dirt", decodes := true },
   { name := "grass", decodes := true }, { name := "sand", decodes := true },
   { name := "water", decodes := true }]

def demoFiles6 : List SourceTexture :=
  [{ name := "a", decodes := true }, { name := "b", decodes := true },
   { name := "c", decodes := true }, { name := "d", decodes := true },
   { name := "e", decodes := true }, { name := "f", decodes := true }]

def demoFiles3 : List SourceTexture :=
  [{ name := "ok1", decodes := true }, { name := "bad", decodes := false },
   { name := "ok2", decodes := true }]

def dupFiles2 : List SourceTexture :=
  [{ name := "a", decodes := true }, { name := "a", decodes := true }]

/-- C1: for every texture count n >= 1 after any capacity truncation,
create_atlas uses cellsPerSide = ceil(sqrt(n)), sizes the atlas as exactly
cellsPerSide * T on each side, and this is the smallest square grid holding
n tiles: cellsPerSide^2 >= n, and (cellsPerSide - 1)^2 < n for n >= 2. -/
theorem create_atlas_smallest_square_grid (b : TextureAtlasBuilder)
    (files : List SourceTexture) (n : Nat) (hn : n = min files.length b.max_textures)
    (h1 : 1 ≤ n) :
    (b.create_atlas files).metadata.textures_per_row = ceilSqrt n ∧
    (b.create_atlas files).metadata.atlas_size = ceilSqrt n * b.texture_size ∧
    n ≤ ceilSqrt n ^ 2 ∧
    (2 ≤ n → (ceilSqrt n - 1) ^ 2 < n) := by
  subst hn
  rw [create_atlas_eq]
  exact ⟨rfl, rfl, le_ceilSqrt_sq _,
    fun _ => ceilSqrt_pred_sq_lt _ h1⟩

/-- Witness for C1 at the n=5, T=16 scenario of the spec. -/
theorem create_atlas_smallest_square_grid_witness :
    (5 = min demoFiles5.length demoBuilder.max_textures ∧ 1 ≤ 5) ∧
    ((demoBuilder.create_atlas demoFiles5).metadata.textures_per_row = ceilSqrt 5 ∧
     (demoBuilder.create_atlas demoFiles5).metadata.atlas_size =
       ceilSqrt 5 * demoBuilder.texture_size ∧
     5 ≤ ceilSqrt 5 ^ 2 ∧
     (2 ≤ 5 → (ceilSqrt 5 - 1) ^ 2 < 5)) :=
  ⟨⟨by decide, by decide⟩,
    create_atlas_smallest_square_grid demoBuilder demoFiles5 5 (by decide) (by decide)⟩

/-- C5: every placement's pixel origin (x, y) satisfies 0 <= x, 0 <= y,
x + T <= atlasSize and y + T <= atlasSize, so pasting the tile stays inside
the atlas buffer. -/
theorem create_atlas_positions_in_bounds (b : TextureAtlasBuilder)
    (files : List SourceTexture) (A : Nat)
    (hA : A = (b.create_atlas files).metadata.atlas_size) :
    ∀ e ∈ (b.create_atlas files).metadata.textures,
      0 ≤ e.2.position.1 ∧ 0 ≤ e.2.position.2 ∧
      e.2.position.1 + b.texture_size ≤ A ∧ e.2.position.2 + b.texture_size ≤ A := by
  intro e he
  obtain ⟨j, hj, hdec, heq⟩ := mem_create_atlas_textures he
  have hA2 : A = ceilSqrt (min files.length b.max_textures) * b.texture_size := by
    rw [hA, create_atlas_eq]
  have hjn : j < min files.length b.max_textures := by
    rw [← length_take_max b files]
    exact hj
  have hsq : j < ceilSqrt (min files.length b.max_textures) *
      ceilSqrt (min files.length b.max_textures) := by
    have hle := le_ceilSqrt_sq (min files.length b.max_textures)
    rw [pow_two] at hle
    exact Nat.lt_of_lt_of_le hjn hle
  have hb := makeEntry_coord_bounds b.texture_size hsq
  rw [heq]
  simp only [makeEntry_position]
  exact ⟨Nat.zero_le _, Nat.zero_le _, by rw [hA2]; exact hb.1, by rw [hA2]; exact hb.2⟩

/-- Witness for C5 at the n=5, T=16 scenario: atlas edge 48. -/
theorem create_atlas_positions_in_bounds_witness :
    (48 = (demoBuilder.create_atlas demoFiles5).metadata.atlas_size) ∧
    (∀ e ∈ (demoBuilder.create_atlas demoFiles5).metadata.textures,
      0 ≤ e.2.position.1 ∧ 0 ≤ e.2.position.2 ∧
      e.2.position.1 + demoBuilder.texture_size ≤ 48 ∧
      e.2.position.2 + demoBuilder.texture_size ≤ 48) :=
  ⟨by decide, create_atlas_positions_in_bounds demoBuilder demoFiles5 48 (by decide)⟩

/-- C9: with zero source textures the run reports failure (exit code 1) and
produces no atlas at all. -/
theorem main_no_inputs_fails : main [] = { exitCode := 1, atlas := none } := rfl

/-- C2: every recorded placement is derived from its index by
row = index / cellsPerSide, col = index % cellsPerSide (integer division)
and pixel origin (x, y) = (col*T, row*T); and in the n=5, T=16 scenario the
entry at index 3 has row 1, col 0 and position (0, 16). -/
theorem create_atlas_row_col_assignment (b : TextureAtlasBuilder)
    (files : List SourceTexture) (cps : Nat)
    (hcps : cps = (b.create_atlas files).metadata.textures_per_row) :
    (∀ e ∈ (b.create_atlas files).metadata.textures,
      e.2.index < min files.length b.max_textures ∧
      e.2.position =
        (e.2.index % cps * b.texture_size, e.2.index / cps * b.texture_size)) ∧
    ((((demoBuilder.create_atlas demoFiles5).metadata.textures).map
        (fun e => (e.1, e.2.index, e.2.position))).get? 3 = some ("sand", 3, (0, 16))) := by
  constructor
  · intro e he
    obtain ⟨j, hj, hdec, heq⟩ := mem_create_atlas_textures he
    have hcps2 : cps = ceilSqrt (min files.length b.max_textures) := by
      rw [hcps, create_atlas_eq]
    constructor
    · have hjn : j < min files.length b.max_textures := by
        rw [← length_take_max b files]
        exact hj
      rw [heq]
      exact hjn
    · rw [heq, hcps2]
      rfl
  · decide

/-- Witness for C2 at the n=5, T=16 scenario: cellsPerSide evaluates to 3. -/
theorem create_atlas_row_col_assignment_witness :
    (3 = (demoBuilder.create_atlas demoFiles5).metadata.textures_per_row) ∧
    ((∀ e ∈ (demoBuilder.create_atlas demoFiles5).metadata.textures,
      e.2.index < min demoFiles5.length demoBuilder.max_textures ∧
      e.2.position =
        (e.2.index % 3 * demoBuilder.texture_size, e.2.index / 3 * demoBuilder.texture_size)) ∧
    ((((demoBuilder.create_atlas demoFiles5).metadata.textures).map
        (fun e => (e.1, e.2.index, e.2.position))).get? 3 = some ("sand", 3, (0, 16)))) :=
  ⟨by decide, create_atlas_row_col_assignment demoBuilder demoFiles5 3 (by decide)⟩

/-- Normalized division bounds used for the UV rectangle: if x + T <= A in
the naturals, the four quotients produced by the Y-flip transform all lie
in the unit interval (with the 0/0 = 0 convention when A = 0). -/
theorem uv_div_bounds {x T A : Nat} (hxT : x + T ≤ A) :
    (0 ≤ (x : ℚ) / (A : ℚ) ∧ (x : ℚ) / (A : ℚ) ≤ 1) ∧
    (0 ≤ ((x : ℚ) + (T : ℚ)) / (A : ℚ) ∧ ((x : ℚ) + (T : ℚ)) / (A : ℚ) ≤ 1) ∧
    (0 ≤ ((A : ℚ) - (x : ℚ) - (T : ℚ)) / (A : ℚ) ∧
      ((A : ℚ) - (x : ℚ) - (T : ℚ)) / (A : ℚ) ≤ 1) ∧
    (0 ≤ ((A : ℚ) - (x : ℚ)) / (A : ℚ) ∧ ((A : ℚ) - (x : ℚ)) / (A : ℚ) ≤ 1) := by
  rcases Nat.eq_zero_or_pos A with hA | hA
  · subst hA
    have hx : x = 0 := by omega
    have hT : T = 0 := by omega
    subst hx
    subst hT
    norm_num
  · have hAq : (0 : ℚ) < (A : ℚ) := by exact_mod_cast hA
    have hxq : (0 : ℚ) ≤ (x : ℚ) := Nat.cast_nonneg x
    have hTq : (0 : ℚ) ≤ (T : ℚ) := Nat.cast_nonneg T
    have hsum : (x : ℚ) + (T : ℚ) ≤ (A : ℚ) := by exact_mod_cast hxT
    refine ⟨⟨div_nonneg hxq (le_of_lt hAq), (div_le_one hAq).mpr (by linarith)⟩,
      ⟨div_nonneg (by linarith) (le_of_lt hAq), (div_le_one hAq).mpr hsum⟩,
      ⟨div_nonneg (by linarith) (le_of_lt hAq), (div_le_one hAq).mpr (by linarith)⟩,
      ⟨div_nonneg (by linarith) (le_of_lt hAq), (div_le_one hAq).mpr (by linarith)⟩⟩

/-- C3: every recorded placement's UV rectangle is the Y-flipped normalized
pixel rectangle (u_min = x/A, u_max = (x+T)/A, v_min = (A-y-T)/A,
v_max = (A-y)/A), and all four values lie in [0, 1]. -/
theorem create_atlas_uv_flip_and_range (b : TextureAtlasBuilder)
    (files : List SourceTexture) (A : Nat)
    (hA : A = (b.create_atlas files).metadata.atlas_size) :
    ∀ e ∈ (b.create_atlas files).metadata.textures,
      (e.2.uvMin.1 = (e.2.position.1 : ℚ) / (A : ℚ) ∧
       e.2.uvMax.1 = ((e.2.position.1 : ℚ) + (b.texture_size : ℚ)) / (A : ℚ) ∧
       e.2.uvMin.2 = ((A : ℚ) - (e.2.position.2 : ℚ) - (b.texture_size : ℚ)) / (A : ℚ) ∧
       e.2.uvMax.2 = ((A : ℚ) - (e.2.position.2 : ℚ)) / (A : ℚ)) ∧
      ((0 ≤ e.2.uvMin.1 ∧ e.2.uvMin.1 ≤ 1) ∧ (0 ≤ e.2.uvMin.2 ∧ e.2.uvMin.2 ≤ 1) ∧
       (0 ≤ e.2.uvMax.1 ∧ e.2.uvMax.1 ≤ 1) ∧ (0 ≤ e.2.uvMax.2 ∧ e.2.uvMax.2 ≤ 1)) := by
  intro e he
  obtain ⟨j, hj, hdec, heq⟩ := mem_create_atlas_textures he
  have hA2 : A = ceilSqrt (min files.length b.max_textures) * b.texture_size := by
    rw [hA, create_atlas_eq]
  have hjn : j < min files.length b.max_textures := by
    rw [← length_take_max b files]
    exact hj
  have hsq : j < ceilSqrt (min files.length b.max_textures) *
      ceilSqrt (min files.length b.max_textures) := by
    have hle := le_ceilSqrt_sq (min files.length b.max_textures)
    rw [pow_two] at hle
    exact Nat.lt_of_lt_of_le hjn hle
  have hb := makeEntry_coord_bounds b.texture_size hsq
  have hu := uv_div_bounds (A := ceilSqrt (min files.length b.max_textures) * b.texture_size)
    (T := b.texture_size) (x := j % ceilSqrt (min files.length b.max_textures) * b.texture_size)
    hb.1
  have hv := uv_div_bounds (A := ceilSqrt (min files.length b.max_textures) * b.texture_size)
    (T := b.texture_size) (x := j / ceilSqrt (min files.length b.max_textures) * b.texture_size)
    hb.2
  rw [heq, hA2]
  exact ⟨⟨rfl, rfl, rfl, rfl⟩, hu.1, hv.2.2.1, hu.2.1, hv.2.2.2⟩

/-- Witness for C3 at the n=5, T=16 scenario: atlas edge 48. -/
theorem create_atlas_uv_flip_and_range_witness :
    (48 = (demoBuilder.create_atlas demoFiles5).metadata.atlas_size) ∧
    (∀ e ∈ (demoBuilder.create_atlas demoFiles5).metadata.textures,
      (e.2.uvMin.1 = (e.2.position.1 : ℚ) / (48 : ℚ) ∧
       e.2.uvMax.1 = ((e.2.position.1 : ℚ) + (demoBuilder.texture_size : ℚ)) / (48 : ℚ) ∧
       e.2.uvMin.2 =
         ((48 : ℚ) - (e.2.position.2 : ℚ) - (demoBuilder.texture_size : ℚ)) / (48 : ℚ) ∧
       e.2.uvMax.2 = ((48 : ℚ) - (e.2.position.2 : ℚ)) / (48 : ℚ)) ∧
      ((0 ≤ e.2.uvMin.1 ∧ e.2.uvMin.1 ≤ 1) ∧ (0 ≤ e.2.uvMin.2 ∧ e.2.uvMin.2 ≤ 1) ∧
       (0 ≤ e.2.uvMax.1 ∧ e.2.uvMax.1 ≤ 1) ∧ (0 ≤ e.2.uvMax.2 ∧ e.2.uvMax.2 ≤ 1))) := by
  have hA : (48 : Nat) = (demoBuilder.create_atlas demoFiles5).metadata.atlas_size := by decide
  have hmain := create_atlas_uv_flip_and_range demoBuilder demoFiles5 48 hA
  have hcast : ((48 : Nat) : ℚ) = (48 : ℚ) := by norm_num
  refine ⟨hA, ?_⟩
  intro e he
  have h := hmain e he
  rw [hcast] at h
  exact h

/-- C4: the capacity is max_textures = floor(targetAtlasSize/T)^2; with more
inputs than that, create_atlas reports the truncation and behaves exactly as
if run on the first max_textures files, which themselves trigger no
truncation (the run continues, it does not error). -/
theorem create_atlas_capacity_truncation (b : TextureAtlasBuilder)
    (files : List SourceTexture) (h : b.max_textures < files.length) :
    b.max_textures = (b.target_atlas_size / b.texture_size) ^ 2 ∧
    (b.create_atlas files).truncated = true ∧
    (b.create_atlas files).metadata = (b.create_atlas (files.take b.max_textures)).metadata ∧
    (b.create_atlas files).pasted = (b.create_atlas (files.take b.max_textures)).pasted ∧
    (b.create_atlas (files.take b.max_textures)).truncated = false := by
  have hlen : (files.take b.max_textures).length = b.max_textures := by
    rw [List.length_take]
    omega
  have hmin1 : min files.length b.max_textures = b.max_textures := by omega
  have hmin2 : min (files.take b.max_textures).length b.max_textures = b.max_textures := by
    rw [hlen]
    exact Nat.min_self _
  have htake : (files.take b.max_textures).take b.max_textures = files.take b.max_textures :=
    List.take_of_length_le (by omega)
  refine ⟨rfl, ?_, ?_, ?_, ?_⟩
  · rw [create_atlas_eq]
    simp [h]
  · rw [create_atlas_eq, create_atlas_eq, hmin1, hmin2, htake]
  · rw [create_atlas_eq, create_atlas_eq, hmin1, hmin2, htake]
  · rw [create_atlas_eq]
    simp [hlen]

/-- Witness for C4 at the capacity scenario: targetAtlasSize=32, T=16 gives
capacity 4 and six inputs are truncated to the first four. -/
theorem create_atlas_capacity_truncation_witness :
    (smallBuilder.max_textures < demoFiles6.length) ∧
    (smallBuilder.max_textures = (smallBuilder.target_atlas_size / smallBuilder.texture_size) ^ 2 ∧
     (smallBuilder.create_atlas demoFiles6).truncated = true ∧
     (smallBuilder.create_atlas demoFiles6).metadata =
       (smallBuilder.create_atlas (demoFiles6.take smallBuilder.max_textures)).metadata ∧
     (smallBuilder.create_atlas demoFiles6).pasted =
       (smallBuilder.create_atlas (demoFiles6.take smallBuilder.max_textures)).pasted ∧
     (smallBuilder.create_atlas (demoFiles6.take smallBuilder.max_textures)).truncated = false) :=
  ⟨by decide, create_atlas_capacity_truncation smallBuilder demoFiles6 (by decide)⟩

/-- C6: a file that fails to decode is skipped — no metadata assignment
carries its index — while every decoding file is processed at its original
index; the number of recorded assignments is the number of decoding files,
so the run as a whole succeeds. -/
theorem create_atlas_skips_decode_failures (b : TextureAtlasBuilder)
    (files : List SourceTexture) (ts : List SourceTexture)
    (hts : ts = files.take b.max_textures) :
    ((b.create_atlas files).metadata.textures).length =
      (ts.filter (fun t => t.decodes)).length ∧
    (∀ k, ∀ hk : k < ts.length, (ts.get ⟨k, hk⟩).decodes = false →
      ∀ e ∈ (b.create_atlas files).metadata.textures, e.2.index ≠ k) ∧
    (∀ j, ∀ hj : j < ts.length, (ts.get ⟨j, hj⟩).decodes = true →
      ((ts.get ⟨j, hj⟩).name,
        makeEntry b.texture_size (ceilSqrt (min files.length b.max_textures))
          (ceilSqrt (min files.length b.max_textures) * b.texture_size) j)
        ∈ (b.create_atlas files).metadata.textures) := by
  subst hts
  refine ⟨?_, ?_, ?_⟩
  · rw [create_atlas_eq]
    exact packEntries_length _ _ _ _ _
  · intro k hk hbad e he hik
    obtain ⟨j, hj, hdec, heq⟩ := mem_create_atlas_textures he
    have hjk : j = k := by
      rw [heq] at hik
      exact hik
    subst hjk
    have hdec2 : ((files.take b.max_textures).get ⟨j, hk⟩).decodes = true := hdec
    rw [hbad] at hdec2
    cases hdec2
  · intro j hj hdj
    rw [create_atlas_eq]
    have h0 := packEntries_mem_of b.texture_size
      (ceilSqrt (min files.length b.max_textures))
      (ceilSqrt (min files.length b.max_textures) * b.texture_size) 0 j hj hdj
    rw [Nat.zero_add] at h0
    exact h0

/-- Witness for C6 at the decode-failure scenario: one failing input among
three leaves exactly two metadata entries. -/
theorem create_atlas_skips_decode_failures_witness :
    (demoFiles3 = demoFiles3.take demoBuilder.max_textures) ∧
    (((demoBuilder.create_atlas demoFiles3).metadata.textures).length =
      (demoFiles3.filter (fun t => t.decodes)).length ∧
    (∀ k, ∀ hk : k < demoFiles3.length, (demoFiles3.get ⟨k, hk⟩).decodes = false →
      ∀ e ∈ (demoBuilder.create_atlas demoFiles3).metadata.textures, e.2.index ≠ k) ∧
    (∀ j, ∀ hj : j < demoFiles3.length, (demoFiles3.get ⟨j, hj⟩).decodes = true →
      ((demoFiles3.get ⟨j, hj⟩).name,
        makeEntry demoBuilder.texture_size
          (ceilSqrt (min demoFiles3.length demoBuilder.max_textures))
          (ceilSqrt (min demoFiles3.length demoBuilder.max_textures) *
            demoBuilder.texture_size) j)
        ∈ (demoBuilder.create_atlas demoFiles3).metadata.textures)) ∧
    ((demoBuilder.create_atlas demoFiles3).metadata.textures).length = 2 :=
  ⟨by decide,
   create_atlas_skips_decode_failures demoBuilder demoFiles3 demoFiles3 (by decide),
   by decide⟩

/-- C7 as stated fails when two decoding inputs share a derived identifier:
here both files decode (no decode failure), the texture count is 2, yet the
stored index values are exactly [1], so index 0 is missing from the
mapping. -/
theorem create_atlas_indices_cover_range_cex :
    (∀ t ∈ dupFiles2, t.decodes = true) ∧
    min dupFiles2.length demoBuilder.max_textures = 2 ∧
    dictIndices ((demoBuilder.create_atlas dupFiles2).metadata.textures) = [1] ∧
    ¬ (0 ∈ dictIndices ((demoBuilder.create_atlas dupFiles2).metadata.textures)) := by
  decide

/-- C7 (amended): for every run over n >= 1 textures in which no decode
failure occurs AND the derived identifiers of the processed files are
pairwise distinct, the index values stored in the textures mapping are
pairwise distinct, each lies in [0, n), and together they cover exactly
the range 0..n-1. -/
theorem create_atlas_indices_cover_range (b : TextureAtlasBuilder)
    (files : List SourceTexture) (ts : List SourceTexture)
    (hts : ts = files.take b.max_textures) (n : Nat)
    (hn : n = min files.length b.max_textures)
    (hdec : ∀ t ∈ ts, t.decodes = true)
    (hnames : (ts.map SourceTexture.name).Nodup) :
    (dictIndices ((b.create_atlas files).metadata.textures)).Nodup ∧
    (∀ m ∈ dictIndices ((b.create_atlas files).metadata.textures), m < n) ∧
    (∀ m, m < n → m ∈ dictIndices ((b.create_atlas files).metadata.textures)) := by
  subst hts
  subst hn
  rw [create_atlas_eq]
  dsimp only
  have hkeys := packEntries_keys_of_all_decode b.texture_size
    (ceilSqrt (min files.length b.max_textures))
    (ceilSqrt (min files.length b.max_textures) * b.texture_size) hdec 0
  have hnodup : ((packEntries b.texture_size
      (ceilSqrt (min files.length b.max_textures))
      (ceilSqrt (min files.length b.max_textures) * b.texture_size) 0
      (files.take b.max_textures)).map Prod.fst).Nodup := by
    rw [hkeys]
    exact hnames
  rw [dictIndices_of_nodup_keys hnodup,
    packEntries_indices_of_all_decode hdec 0, length_take_max,
    ← List.range_eq_range']
  exact ⟨List.nodup_range _, fun m hm => List.mem_range.mp hm,
    fun m hm => List.mem_range.mpr hm⟩

/-- Witness for C7 (amended) with five distinctly named decoding inputs. -/
theorem create_atlas_indices_cover_range_witness :
    (demoFiles5 = demoFiles5.take demoBuilder.max_textures ∧
     5 = min demoFiles5.length demoBuilder.max_textures ∧
     (∀ t ∈ demoFiles5, t.decodes = true) ∧
     (demoFiles5.map SourceTexture.name).Nodup) ∧
    ((dictIndices ((demoBuilder.create_atlas demoFiles5).metadata.textures)).Nodup ∧
     (∀ m ∈ dictIndices ((demoBuilder.create_atlas demoFiles5).metadata.textures), m < 5) ∧
     (∀ m, m < 5 → m ∈ dictIndices ((demoBuilder.create_atlas demoFiles5).metadata.textures))) :=
  ⟨⟨by decide, by decide, by decide, by decide⟩,
    create_atlas_indices_cover_range demoBuilder demoFiles5 demoFiles5 (by decide) 5
      (by decide) (by decide) (by decide)⟩

/-- C8: when two decoding files share the derived identifier, the collision
is not detected: the dict lookup for that identifier returns the later
file's entry (the earlier assignment is overwritten), while the pixel data
of both files was still pasted into their respective atlas cells. -/
theorem create_atlas_identifier_collision (b : TextureAtlasBuilder)
    (files : List SourceTexture) (ts : List SourceTexture)
    (hts : ts = files.take b.max_textures) (cps A : Nat)
    (hcps : cps = ceilSqrt (min files.length b.max_textures))
    (hA : A = cps * b.texture_size) (s : String) (i j : Nat)
    (hi : i < ts.length) (hj : j < ts.length) (hij : i < j)
    (hni : (ts.get ⟨i, hi⟩).name = s) (hdi : (ts.get ⟨i, hi⟩).decodes = true)
    (hnj : (ts.get ⟨j, hj⟩).name = s) (hdj : (ts.get ⟨j, hj⟩).decodes = true)
    (hlast : ∀ k, ∀ hk : k < ts.length, j < k → (ts.get ⟨k, hk⟩).name = s →
      (ts.get ⟨k, hk⟩).decodes = true → False) :
    dictLookup ((b.create_atlas files).metadata.textures) s =
      some (makeEntry b.texture_size cps A j) ∧
    (makeEntry b.texture_size cps A i).position ∈ (b.create_atlas files).pasted ∧
    (makeEntry b.texture_size cps A j).position ∈ (b.create_atlas files).pasted := by
  subst hts
  subst hA
  subst hcps
  rw [create_atlas_eq]
  dsimp only
  refine ⟨?_, ?_, ?_⟩
  · have hlook := dictLookup_packEntries_last b.texture_size
      (ceilSqrt (min files.length b.max_textures))
      (ceilSqrt (min files.length b.max_textures) * b.texture_size)
      hj hnj hdj hlast 0
    rw [Nat.zero_add] at hlook
    exact hlook
  · have hmem := packEntries_mem_of b.texture_size
      (ceilSqrt (min files.length b.max_textures))
      (ceilSqrt (min files.length b.max_textures) * b.texture_size) 0 i hi hdi
    rw [Nat.zero_add] at hmem
    exact List.mem_map_of_mem (fun e => e.2.position) hmem
  · have hmem := packEntries_mem_of b.texture_size
      (ceilSqrt (min files.length b.max_textures))
      (ceilSqrt (min files.length b.max_textures) * b.texture_size) 0 j hj hdj
    rw [Nat.zero_add] at hmem
    exact List.mem_map_of_mem (fun e => e.2.position) hmem

/-- Witness for C8: two decoding files both named a; the mapping keeps the
entry of index 1, the atlas keeps both pasted cells. -/
theorem create_atlas_identifier_collision_witness :
    (dupFiles2 = dupFiles2.take demoBuilder.max_textures ∧
     2 = ceilSqrt (min dupFiles2.length demoBuilder.max_textures) ∧
     32 = 2 * demoBuilder.texture_size ∧
     (dupFiles2.get ⟨0, by decide⟩).name = "a" ∧
     (dupFiles2.get ⟨1, by decide⟩).name = "a") ∧
    (dictLookup ((demoBuilder.create_atlas dupFiles2).metadata.textures) "a" =
      some (makeEntry demoBuilder.texture_size 2 32 1) ∧
    (makeEntry demoBuilder.texture_size 2 32 0).position ∈
      (demoBuilder.create_atlas dupFiles2).pasted ∧
    (makeEntry demoBuilder.texture_size 2 32 1).position ∈
      (demoBuilder.create_atlas dupFiles2).pasted) :=
  ⟨⟨by decide, by decide, by decide, by decide, by decide⟩,
    create_atlas_identifier_collision demoBuilder dupFiles2 dupFiles2 (by decide) 2 32
      (by decide) (by decide) "a" 0 1 (by decide) (by decide) (by decide)
      (by decide) (by decide) (by decide) (by decide)
      (by
        intro k hk h1 _ _
        have hlen2 : dupFiles2.length = 2 := rfl
        omega)⟩

/-- C10: when truncation is triggered and T <= targetAtlasSize, the
truncated count is exactly capacity = floor(targetAtlasSize/T)^2, a perfect
square, so the grid is exactly k = floor(targetAtlasSize/T) cells per side,
the emitted atlas edge is k*T <= targetAtlasSize, and (when every file
decodes) every one of the k*k grid cells receives a placement. -/
theorem create_atlas_truncated_full_grid (b : TextureAtlasBuilder)
    (files : List SourceTexture) (k : Nat)
    (hk : k = b.target_atlas_size / b.texture_size)
    (hT : 1 ≤ b.texture_size) (hTle : b.texture_size ≤ b.target_atlas_size)
    (h : b.max_textures < files.length) :
    min files.length b.max_textures = k ^ 2 ∧
    1 ≤ k ∧
    (b.create_atlas files).metadata.textures_per_row = k ∧
    (b.create_atlas files).metadata.atlas_size = k * b.texture_size ∧
    k * b.texture_size ≤ b.target_atlas_size ∧
    ((∀ t ∈ files, t.decodes = true) →
      ∀ row col, row < k → col < k →
        ∃ e ∈ (b.create_atlas files).metadata.textures,
          e.2.index = row * k + col ∧
          e.2.position = (col * b.texture_size, row * b.texture_size)) := by
  have hmax : b.max_textures = k ^ 2 := by
    rw [hk]
    rfl
  have hmin : min files.length b.max_textures = k ^ 2 := by omega
  have hcpsk : ceilSqrt (min files.length b.max_textures) = k := by
    rw [hmin, ceilSqrt_sq_self]
  refine ⟨hmin, ?_, ?_, ?_, ?_, ?_⟩
  · rw [hk]
    exact (Nat.one_le_div_iff hT).mpr hTle
  · rw [create_atlas_eq]
    exact hcpsk
  · rw [create_atlas_eq]
    dsimp only
    rw [hcpsk]
  · rw [hk]
    exact Nat.div_mul_le_self _ _
  · intro hdecf row col hrow hcol
    have hidx : row * k + col < k * k := by
      have e1 : (row + 1) * k = row * k + k := by ring
      have h2 : (row + 1) * k ≤ k * k := Nat.mul_le_mul_right k hrow
      omega
    have hlen : (files.take b.max_textures).length = k ^ 2 := by
      rw [length_take_max, hmin]
    have hidx2 : row * k + col < (files.take b.max_textures).length := by
      rw [hlen, pow_two]
      exact hidx
    have hdec : ((files.take b.max_textures).get ⟨row * k + col, hidx2⟩).decodes = true :=
      hdecf _ (List.take_subset _ _ (List.get_mem _ _ _))
    rw [create_atlas_eq]
    dsimp only
    have hmem := packEntries_mem_of b.texture_size
      (ceilSqrt (min files.length b.max_textures))
      (ceilSqrt (min files.length b.max_textures) * b.texture_size) 0
      (row * k + col) hidx2 hdec
    rw [Nat.zero_add] at hmem
    refine ⟨_, hmem, rfl, ?_⟩
    rw [makeEntry_position, hcpsk]
    have hmod : (row * k + col) % k = col := by
      have hkpos : 0 < k := by omega
      rw [Nat.mul_comm row k, Nat.mul_add_mod]
      exact Nat.mod_eq_of_lt hcol
    have hdiv : (row * k + col) / k = row := by
      have hkpos : 0 < k := by omega
      rw [Nat.mul_comm row k, Nat.mul_add_div hkpos, Nat.div_eq_of_lt hcol]
      omega
    rw [hmod, hdiv]

/-- Witness for C10 at the capacity scenario: targetAtlasSize=32, T=16,
k=2, six decoding inputs truncated to a fully occupied 2x2 grid. -/
theorem create_atlas_truncated_full_grid_witness :
    (2 = smallBuilder.target_atlas_size / smallBuilder.texture_size ∧
     1 ≤ smallBuilder.texture_size ∧
     smallBuilder.texture_size ≤ smallBuilder.target_atlas_size ∧
     smallBuilder.max_textures < demoFiles6.length) ∧
    (min demoFiles6.length smallBuilder.max_textures = 2 ^ 2 ∧
     1 ≤ 2 ∧
     (smallBuilder.create_atlas demoFiles6).metadata.textures_per_row = 2 ∧
     (smallBuilder.create_atlas demoFiles6).metadata.atlas_size =
       2 * smallBuilder.texture_size ∧
     2 * smallBuilder.texture_size ≤ smallBuilder.target_atlas_size ∧
     ((∀ t ∈ demoFiles6, t.decodes = true) →
       ∀ row col, row < 2 → col < 2 →
         ∃ e ∈ (smallBuilder.create_atlas demoFiles6).metadata.textures,
           e.2.index = row * 2 + col ∧
           e.2.position = (col * smallBuilder.texture_size, row * smallBuilder.texture_size))) :=
  ⟨⟨by decide, by decide, by decide, by decide⟩,
    create_atlas_truncated_full_grid smallBuilder demoFiles6 2 (by decide) (by decide)
      (by decide) (by decide)⟩

end AtlasGenerator
